import Mathlib

/-!
# Verification of the Auxa submission content extraction & vision-routing pipeline

Shallow embedding of the extraction pipeline from `dashboard.js`.  JavaScript
strings are modelled as `List Char`; the mutable per-submission vision budget is
threaded explicitly through every function that could mutate it in the source;
external effects (network fetches, OCR recognition, image decoding, the vision
description service) are inputs supplied through environment records, so every
function is a pure, executable Lean definition mirroring the source control
flow.  Floating point numbers in the source (edge density) are modelled as
exact rationals.
-/

/-- JavaScript strings are modelled as lists of characters. -/
abbrev Str := List Char

/-- Embed a Lean string literal as a character list. -/
def str (s : String) : Str := s.data

/-- `startsWithChars p s` is true when `p` is a leading segment of `s`. -/
def startsWithChars : Str → Str → Bool
  | [], _ => true
  | _ :: _, [] => false
  | c :: cs, d :: ds => c == d && startsWithChars cs ds

/-- `occursInB p s` is true when `p` occurs contiguously inside `s`
(JavaScript `s.includes(p)`). -/
def occursInB (p : Str) : Str → Bool
  | [] => startsWithChars p []
  | c :: rest => startsWithChars p (c :: rest) || occursInB p rest

/-- JavaScript `String.prototype.toLowerCase`, restricted to per-character
lowering. -/
def toLowerStr (s : Str) : Str := s.map Char.toLower

/-- JavaScript `String.prototype.trim`: drop whitespace at both ends. -/
def jsTrim (s : Str) : Str :=
  ((s.dropWhile Char.isWhitespace).reverse.dropWhile Char.isWhitespace).reverse

/-- Split into maximal whitespace-free words (auxiliary for `normWS`). -/
def wordsAux : Str → Str → List Str
  | [], acc => if acc = [] then [] else [acc.reverse]
  | c :: rest, acc =>
    if c.isWhitespace then
      if acc = [] then wordsAux rest [] else acc.reverse :: wordsAux rest []
    else wordsAux rest (c :: acc)

/-- JavaScript `s.replace(/\s+/g, ' ').trim()`: collapse whitespace runs to a
single space and trim the ends. -/
def normWS (s : Str) : Str := (str " ").intercalate (wordsAux s [])

/-- JavaScript `Array.prototype.join(sep)`. -/
def joinSep (sep : Str) : List Str → Str
  | [] => []
  | [x] => x
  | x :: y :: rest => x ++ sep ++ joinSep sep (y :: rest)

/-- Decimal rendering of a natural number. -/
def natToStr (n : Nat) : Str := Nat.toDigits 10 n

/-- Deduplicate keeping first occurrences (JavaScript `[...new Set(l)]`),
with an accumulator of already-seen elements. -/
def dedupAux : List Str → List Str → List Str
  | [], _ => []
  | x :: rest, seen =>
    if x ∈ seen then dedupAux rest seen else x :: dedupAux rest (x :: seen)

/-- JavaScript `[...new Set(l)]`: first occurrences, in order. -/
def jsSetDedup (l : List Str) : List Str := dedupAux l []

/-! ## Pipeline constants (`dashboard.js`, module top) -/

def TEXT_FILE_EXTENSIONS : List Str :=
  [str "txt", str "md", str "json", str "py", str "js", str "ts", str "jsx",
   str "tsx", str "go", str "c", str "cpp", str "h", str "hpp", str "java",
   str "cs", str "php", str "rb", str "rs", str "swift", str "kt", str "scala",
   str "r", str "sh", str "bash", str "sql", str "html", str "css", str "scss",
   str "xml", str "yaml", str "yml", str "csv", str "tex"]

def IMAGE_FILE_EXTENSIONS : List Str :=
  [str "png", str "jpg", str "jpeg", str "gif", str "webp", str "bmp",
   str "tiff"]

def DOCUMENT_OCR_PAGE_LIMIT : Nat := 5
def DOCX_OCR_IMAGE_LIMIT : Nat := 5
def OCR_CHARACTER_LIMIT : Nat := 6000
def VISION_MODEL_KEYWORDS : List Str := [str "gpt-4o", str "gpt-4.1", str "gpt-5"]
def VISION_MAX_ANALYSES_PER_SUBMISSION : Nat := 3
def OCR_TEXT_HEAVY_THRESHOLD : Nat := 220
def OCR_TEXT_MIN_THRESHOLD : Nat := 40
def EDGE_DENSITY_VISION_THRESHOLD : ℚ := 0.12
def COLOR_DIVERSITY_THRESHOLD : Nat := 45

/-! ## Data model -/

/-- Caller-supplied AI configuration (the fields the pipeline reads).  A JS
`null`/`undefined` configuration is modelled as `Option.none` at use sites. -/
structure AIConfig where
  platform : Str
  apiKey : Str
  textModel : Str
deriving DecidableEq

/-- Per-submission vision budget (`createVisionBudget`). -/
structure VisionBudget where
  enabled : Bool
  used : Nat
  max : Nat
  sources : List Str
deriving DecidableEq

/-- Structural image metrics as returned by `analyzeImageStructure`
(`none` at call sites models a decode failure). -/
structure StructMetrics where
  edgeDensity : ℚ
  colorDiversity : Nat
  scaledDataUrl : Str
  scaledMimeType : Str
deriving DecidableEq

/-- Environment for one image analysed by `processImageForAI`: the data URL it
was given, its MIME type, and the outcomes of the external OCR, structural
analysis and vision-description calls for this image. -/
structure ImageEnv where
  dataUrl : Str
  mimeType : Str
  ocrRawText : Str
  metrics : Option StructMetrics
  visionResult : Except Unit Str

/-! ## Vision decision engine -/

/-- `supportsVisionModel` from the source: keyword substring match on the
lowercased model name. -/
def supportsVisionModel (modelName : Str) : Bool :=
  if modelName = [] then false
  else
    let lower := toLowerStr modelName
    VISION_MODEL_KEYWORDS.any fun keyword => occursInB keyword lower

/-- `createVisionBudget` from the source: enabled iff the platform is openai,
an API key is present and the selected text model is vision capable. -/
def createVisionBudget (aiConfig : Option AIConfig) : VisionBudget :=
  let enabled :=
    match aiConfig with
    | some c =>
      decide (c.platform = str "openai") && decide (c.apiKey ≠ []) &&
        supportsVisionModel c.textModel
    | none => false
  { enabled := enabled
    used := 0
    max := VISION_MAX_ANALYSES_PER_SUBMISSION
    sources := [] }

/-- `shouldTriggerVision` from the source: the pure use/skip decision from the
normalized OCR text length, the optional structural metrics, and the
`forceVision` flag. -/
def shouldTriggerVision (textLength : Nat) (metricsData : Option StructMetrics)
    (forceVision : Bool) : Bool :=
  if forceVision then true
  else if OCR_TEXT_HEAVY_THRESHOLD ≤ textLength then false
  else
    match metricsData with
    | none => decide (textLength ≤ OCR_TEXT_MIN_THRESHOLD)
    | some md =>
      if textLength ≤ OCR_TEXT_MIN_THRESHOLD then true
      else
        decide (EDGE_DENSITY_VISION_THRESHOLD ≤ md.edgeDensity) ||
          decide (COLOR_DIVERSITY_THRESHOLD ≤ md.colorDiversity)

/-- Reference rule set written from the specification's words (§4.4), used
only to compare against the source's `shouldTriggerVision`: forceVision
dominates; then the text-heavy cutoff; then the no-metrics rule; then the
short-text rule; finally the metric thresholds. -/
def visionDecisionSpec (textLength : Nat) (metricsData : Option StructMetrics)
    (forceVision : Bool) : Bool :=
  if forceVision then true
  else if 220 ≤ textLength then false
  else
    match metricsData with
    | none => decide (textLength ≤ 40)
    | some m =>
      if textLength ≤ 40 then true
      else decide ((0.12 : ℚ) ≤ m.edgeDensity) || decide (45 ≤ m.colorDiversity)

/-- `truncateForAI` from the source (the default JS `limit` is
`OCR_CHARACTER_LIMIT = 6000`, always passed explicitly here). -/
def truncateForAI (text : Str) (limit : Nat) : Str :=
  if text.length ≤ limit then text
  else text.take limit ++ str "\n... (content truncated)"

/-! ## `processImageForAI` and its helpers -/

/-- Result of `analyzeForVision` (the `detection` object in the source). -/
structure Detection where
  shouldUseVision : Bool
  metrics : Option (ℚ × Nat)
  scaledDataUrl : Option Str
  scaledMimeType : Str
  textLength : Nat

/-- `analyzeForVision` from the source: normalize the OCR text, measure it and
consult `shouldTriggerVision`.  The structural metrics come from the
environment (the canvas-based `analyzeImageStructure` decode is external). -/
def analyzeForVision (metricsData : Option StructMetrics) (ocrText : Str)
    (mimeType : Str) (forceVision : Bool) : Detection :=
  let cleanText := normWS ocrText
  let textLength := cleanText.length
  { shouldUseVision := shouldTriggerVision textLength metricsData forceVision
    metrics := metricsData.map fun md => (md.edgeDensity, md.colorDiversity)
    scaledDataUrl := metricsData.map fun md => md.scaledDataUrl
    scaledMimeType :=
      match metricsData with
      | some md => md.scaledMimeType
      | none => if mimeType = [] then str "image/png" else mimeType
    textLength := textLength }

/-- JavaScript `Number.prototype.toFixed(2)` on an exact rational. -/
def toFixed2 (q : ℚ) : Str :=
  let n : Int := round (q * 100)
  let m : Nat := n.natAbs
  (if n < 0 then str "-" else []) ++ natToStr (m / 100) ++ str "." ++
    (if m % 100 < 10 then str "0" else []) ++ natToStr (m % 100)

/-- The text model name used in the vision summary heading
(`aiConfig.textModel`; the `none` branch is unreachable when a vision call was
made, since `canUseVision` requires a configuration). -/
def cfgTextModel : Option AIConfig → Str
  | some c => c.textModel
  | none => str "undefined"

/-- Result of one `processImageForAI` call: the produced analysis block (or
`none`), the updated budget, and the source's `visionAttempted` /
`visionSuccessful` flags. -/
structure ImageResult where
  analysis : Option Str
  budget : VisionBudget
  visionAttempted : Bool
  visionSuccessful : Bool

/-- The effective source label used by `processImageForAI`
(`sourceLabel || 'Image'`). -/
def effectiveLabel (sourceLabel : Str) : Str :=
  if sourceLabel = [] then str "Image" else sourceLabel

/-- Whether a vision-description outcome is a successfully returned non-empty
summary. -/
def visionOkNonempty : Except Unit Str → Bool
  | .ok s => decide (s ≠ [])
  | .error _ => false

/-- The vision-call stage of `processImageForAI` (its budget-guarded
`if`/`else if` block): returns the vision sections, the updated budget and the
source's `visionAttempted` / `visionSuccessful` flags. -/
def visionStage (aiConfig : Option AIConfig) (visionResult : Except Unit Str)
    (label : Str) (shouldUseVision forceVision : Bool)
    (visionBudget : VisionBudget) : List Str × VisionBudget × Bool × Bool :=
  let canUseVision :=
    visionBudget.enabled &&
      (match aiConfig with
       | some c => decide (c.apiKey ≠ []) && decide (c.platform = str "openai")
       | none => false)
  if canUseVision && decide (visionBudget.used < visionBudget.max) &&
      (shouldUseVision || forceVision) then
    let b1 : VisionBudget := { visionBudget with used := visionBudget.used + 1 }
    match visionResult with
    | .ok summary =>
      if summary ≠ [] then
        ([str "Vision Summary (" ++ cfgTextModel aiConfig ++ str "):\n" ++
            truncateForAI summary 1500],
         { b1 with sources := b1.sources ++ [label] }, true, true)
      else
        ([str "Vision Summary:\n(No description returned)"], b1, true, false)
    | .error _ =>
      ([str "Vision Summary:\n(Failed to analyse visual content)"], b1,
       true, false)
  else if shouldUseVision || forceVision then
    if !visionBudget.enabled then
      ([str "Vision Summary:\n(Skipped – current model does not support vision input)"],
       visionBudget, false, false)
    else if visionBudget.max ≤ visionBudget.used then
      ([str "Vision Summary:\n(Skipped – vision analysis limit reached for this submission)"],
       visionBudget, false, false)
    else ([], visionBudget, false, false)
  else ([], visionBudget, false, false)

/-- `processImageForAI` from the source: run OCR, decide on a vision call
under the shared budget, and assemble the per-image analysis block. -/
def processImageForAI (aiConfig : Option AIConfig) (env : ImageEnv)
    (sourceLabel : Str) (forceVision : Bool) (visionBudget : VisionBudget) :
    ImageResult :=
  if env.dataUrl = [] then
    { analysis := none, budget := visionBudget
      visionAttempted := false, visionSuccessful := false }
  else
    let ocrText := jsTrim env.ocrRawText
    let normalizedMime :=
      toLowerStr (if env.mimeType = [] then str "image/png" else env.mimeType)
    let label := effectiveLabel sourceLabel
    let detection := analyzeForVision env.metrics ocrText normalizedMime forceVision
    let (visionSections, budget1, visionAttempted, visionSuccessful) :=
      visionStage aiConfig env.visionResult label detection.shouldUseVision
        forceVision visionBudget
    let ocrSections :=
      if ocrText ≠ [] then [str "OCR Text:\n" ++ truncateForAI ocrText OCR_CHARACTER_LIMIT]
      else if !visionSuccessful then [str "OCR Text:\n(No text detected)"]
      else []
    let structSections :=
      match detection.metrics with
      | some (edge, palette) =>
        if detection.shouldUseVision || forceVision then
          [str "Structure Check:\nDetected complex visual structure (edge density=" ++
            toFixed2 edge ++ str ", palette diversity=" ++ natToStr palette ++ str ")"]
        else []
      | none => []
    let sections := visionSections ++ ocrSections ++ structSections
    if sections = [] then
      { analysis := none, budget := budget1
        visionAttempted := visionAttempted, visionSuccessful := visionSuccessful }
    else
      let analysisLabel :=
        if occursInB (str "image") (toLowerStr label) then label
        else str "Image - " ++ label
      { analysis := some (analysisLabel ++ str " Analysis:\n" ++
          joinSep (str "\n\n") sections)
        budget := budget1
        visionAttempted := visionAttempted, visionSuccessful := visionSuccessful }

/-! ## A submission pass as a sequence of image-processing steps

Every mutation of the vision budget in the source goes through
`processImageForAI` (the PDF, DOCX and raw-image decoders all delegate to it),
so an arbitrary extraction pass is modelled as a list of image steps threaded
through the budget created by `createVisionBudget`. -/

/-- One image submitted to `processImageForAI` during a pass. -/
structure ImageStep where
  env : ImageEnv
  sourceLabel : Str
  forceVision : Bool

/-- Thread a budget through a list of image-processing steps, collecting every
per-step result. -/
def runImages (aiConfig : Option AIConfig) :
    List ImageStep → VisionBudget → List ImageResult × VisionBudget
  | [], b => ([], b)
  | s :: rest, b =>
    let r := processImageForAI aiConfig s.env s.sourceLabel s.forceVision b
    let (rs, b') := runImages aiConfig rest r.budget
    (r :: rs, b')

/-! ## Format decoders -/

/-- `getFileExtension` from the source: last dot-separated segment, lowercased;
empty when the name has no dot. -/
def getFileExtension (filename : Str) : Str :=
  let segments := filename.splitOn '.'
  if segments.length < 2 then []
  else toLowerStr (segments.getLastD [])

/-- `fetchFileContent` from the source, with the fetch outcome supplied by the
environment (`none` models a failed fetch or a non-ok response): decode as
text and truncate over 10,000 characters with a truncation marker. -/
def fetchFileContent (filename : Str) (fetched : Option Str) : Option Str :=
  if getFileExtension filename ∈ TEXT_FILE_EXTENSIONS then
    match fetched with
    | none => none
    | some text =>
      if 10000 < text.length then
        some (text.take 10000 ++ str "\n\n... (content truncated)")
      else some text
  else none

/-- One PDF page as seen by the pipeline: the text-content item strings of the
text layer, and the environment of the rasterized page image. -/
structure PdfPage where
  items : List Str
  image : ImageEnv

/-- The page text as computed in the source:
`items.map(i => i.str).join(' ').replace(/\s+/g, ' ').trim()`. -/
def pdfPageText (page : PdfPage) : Str :=
  normWS ((str " ").intercalate page.items)

/-- Environment for one PDF attachment: library availability, fetch and decode
outcomes, the page count reported by the decoder, and the per-page data. -/
structure PdfEnv where
  libAvailable : Bool
  fetchOk : Bool
  decodeOk : Bool
  numPages : Nat
  pages : List PdfPage

/-- Result of `extractPdfContentForAI`: the returned content, the updated
budget, the source's `sections` local before joining, and one
`(pageNumber, forceVision)` record per `processImageForAI` call made. -/
structure PdfResult where
  content : Option Str
  budget : VisionBudget
  sections : List Str
  pageCalls : List (Nat × Bool)

/-- The per-page loop of `extractPdfContentForAI`: push the page text section
when the text layer is non-empty, then route the rasterized page through
`processImageForAI` with `forceVision` set exactly when the text was empty. -/
def pdfPagesLoop (aiConfig : Option AIConfig) :
    List PdfPage → Nat → VisionBudget →
      List Str × VisionBudget × List (Nat × Bool)
  | [], _, b => ([], b, [])
  | page :: rest, pageNumber, b =>
    let pageText := pdfPageText page
    let textSections :=
      if pageText ≠ [] then
        [str "PDF Page " ++ natToStr pageNumber ++ str " Text:\n" ++
          truncateForAI pageText OCR_CHARACTER_LIMIT]
      else []
    let fv := decide (pageText = [])
    let r := processImageForAI aiConfig page.image
      (str "PDF Page " ++ natToStr pageNumber) fv b
    let analysisSections :=
      match r.analysis with
      | some a => [a]
      | none => []
    let (secs, b', calls) := pdfPagesLoop aiConfig rest (pageNumber + 1) r.budget
    (textSections ++ analysisSections ++ secs, b', (pageNumber, fv) :: calls)

/-- `extractPdfContentForAI` from the source: process the first
`min(numPages, DOCUMENT_OCR_PAGE_LIMIT)` pages in ascending order and append a
limit note when the document has more pages than the limit. -/
def extractPdfContentForAI (aiConfig : Option AIConfig) (env : PdfEnv)
    (b : VisionBudget) : PdfResult :=
  if !env.libAvailable then ⟨none, b, [], []⟩
  else if !env.fetchOk then ⟨none, b, [], []⟩
  else if !env.decodeOk then ⟨none, b, [], []⟩
  else
    let pageLimit := min env.numPages DOCUMENT_OCR_PAGE_LIMIT
    let (secs, b', calls) :=
      pdfPagesLoop aiConfig (env.pages.take pageLimit) 1 b
    let sections :=
      secs ++
        if pageLimit < env.numPages then
          [str "Note: OCR limited to first " ++ natToStr pageLimit ++
            str " pages out of " ++ natToStr env.numPages ++ str "."]
        else []
    ⟨if sections = [] then none else some (joinSep (str "\n\n") sections),
     b', sections, calls⟩

/-- One DOCX embedded image as handed to the `convertImage` callback: its
content type, base64 payload, and the external outcomes for its analysis. -/
structure DocxImage where
  contentType : Str
  base64 : Str
  ocrRawText : Str
  metrics : Option StructMetrics
  visionResult : Except Unit Str

/-- The image environment built inside the DOCX callback:
`data:${contentType};base64,${base64}` with a `image/png` fallback type. -/
def docxImageEnv (img : DocxImage) : ImageEnv :=
  let contentType :=
    if img.contentType = [] then str "image/png" else img.contentType
  { dataUrl := str "data:" ++ contentType ++ str ";base64," ++ img.base64
    mimeType := contentType
    ocrRawText := img.ocrRawText
    metrics := img.metrics
    visionResult := img.visionResult }

/-- The `convertImage` callback loop of `extractDocxContentForAI`: the first
argument below the limit is analysed (incrementing `processedImages`, whose
value names the source label), every later image returns an empty placeholder
without any analysis or note. -/
def docxImagesLoop (aiConfig : Option AIConfig) :
    List DocxImage → Nat → VisionBudget → List Str × VisionBudget
  | [], _, b => ([], b)
  | img :: rest, processedImages, b =>
    if DOCX_OCR_IMAGE_LIMIT ≤ processedImages then
      docxImagesLoop aiConfig rest processedImages b
    else
      let n := processedImages + 1
      let r := processImageForAI aiConfig (docxImageEnv img)
        (str "DOCX Embedded Image " ++ natToStr n) false b
      let (analyses, b') := docxImagesLoop aiConfig rest n r.budget
      (match r.analysis with
       | some a => a :: analyses
       | none => analyses, b')

/-- `s.replace(/\r\n/g, '\n')`. -/
def stripCR : Str → Str
  | [] => []
  | '\r' :: '\n' :: rest => '\n' :: stripCR rest
  | c :: rest => c :: stripCR rest

/-- `s.replace(/\n{3,}/g, '\n\n')`: collapse runs of three or more newlines to
two, tracked with a pending-run counter. -/
def collapseNLAux : Str → Nat → Str
  | [], pending => List.replicate (min pending 2) '\n'
  | c :: rest, pending =>
    if c = '\n' then collapseNLAux rest (pending + 1)
    else List.replicate (min pending 2) '\n' ++ c :: collapseNLAux rest 0

/-- The DOCX text cleanup from the source:
`innerText.replace(/\r\n/g,'\n').replace(/\n{3,}/g,'\n\n').trim()`. -/
def docxTextContent (innerText : Str) : Str :=
  jsTrim (collapseNLAux (stripCR innerText) 0)

/-- Environment for one DOCX attachment. -/
structure DocxEnv where
  libAvailable : Bool
  fetchOk : Bool
  decodeOk : Bool
  innerText : Str
  images : List DocxImage

/-- `extractDocxContentForAI` from the source: cleaned text section plus the
joined analyses of the first `DOCX_OCR_IMAGE_LIMIT` embedded images. -/
def extractDocxContentForAI (aiConfig : Option AIConfig) (env : DocxEnv)
    (b : VisionBudget) : Option Str × VisionBudget :=
  if !env.libAvailable then (none, b)
  else if !env.fetchOk then (none, b)
  else if !env.decodeOk then (none, b)
  else
    let (imageAnalyses, b') := docxImagesLoop aiConfig env.images 0 b
    let textContent := docxTextContent env.innerText
    let sections :=
      (if textContent ≠ [] then
        [str "DOCX Text:\n" ++ truncateForAI textContent OCR_CHARACTER_LIMIT]
       else []) ++
      (if imageAnalyses ≠ [] then [joinSep (str "\n\n") imageAnalyses] else [])
    (if sections = [] then none else some (joinSep (str "\n\n") sections), b')

/-- Environment for one raster-image attachment (fetch plus data-URL
conversion outcome, and the image analysis environment). -/
structure ImageAttachmentEnv where
  fetchOk : Bool
  image : ImageEnv

/-- `extractImageOCRContent` from the source: fetch the image, convert to a
data URL and route through `processImageForAI` with no forced vision. -/
def extractImageOCRContent (aiConfig : Option AIConfig) (mimeType : Str)
    (sourceLabel : Str) (env : ImageAttachmentEnv) (b : VisionBudget) :
    Option Str × VisionBudget :=
  if !env.fetchOk then (none, b)
  else
    let r := processImageForAI aiConfig { env.image with mimeType := mimeType }
      (if sourceLabel = [] then str "Image Attachment" else sourceLabel) false b
    (r.analysis, r.budget)

/-! ## Extraction orchestrator -/

/-- Attachment metadata (`filename`, `content-type`, `size`). -/
structure FileMeta where
  filename : Str
  contentType : Str
  size : Nat

/-- Environment for one attachment: `thrown` models an exception escaping
`extractAttachmentContentForAI` (caught by the orchestrator), the other fields
feed the decoder selected by the file extension. -/
structure AttachmentEnv where
  thrown : Bool
  textFetch : Option Str
  docx : DocxEnv
  pdf : PdfEnv
  imageAtt : ImageAttachmentEnv

/-- `formatFileSize` from the source (`Math.log`-based unit index modelled by
`Nat.log`, the rounded value by exact rational rounding). -/
def formatFileSize (bytes : Nat) : Str :=
  if bytes = 0 then str "0 Bytes"
  else
    let sizes := [str "Bytes", str "KB", str "MB", str "GB"]
    let i := Nat.log 1024 bytes
    let n100 : Nat := (round ((bytes : ℚ) * 100 / (1024 : ℚ) ^ i)).natAbs
    let ip := n100 / 100
    let fr := n100 % 100
    (if fr = 0 then natToStr ip
     else if fr % 10 = 0 then natToStr ip ++ str "." ++ natToStr (fr / 10)
     else natToStr ip ++ str "." ++ natToStr fr) ++
      str " " ++ sizes.getD i (str "undefined")

/-- `extractAttachmentContentForAI` from the source: dispatch on the file
extension; `Except.error` models an exception propagating to the caller. -/
def extractAttachmentContentForAI (file : FileMeta)
    (aiConfig : Option AIConfig) (env : AttachmentEnv) (b : VisionBudget) :
    Except Unit (Option Str) × VisionBudget :=
  if env.thrown then (.error (), b)
  else
    let extension := getFileExtension file.filename
    if extension ∈ TEXT_FILE_EXTENSIONS then
      match fetchFileContent file.filename env.textFetch with
      | some textContent =>
        if textContent = [] then (.ok none, b)
        else
          (.ok (some (str "Text Content:\n" ++
            truncateForAI textContent OCR_CHARACTER_LIMIT)), b)
      | none => (.ok none, b)
    else if extension = str "docx" then
      let (content, b') := extractDocxContentForAI aiConfig env.docx b
      (.ok content, b')
    else if extension = str "pdf" then
      let r := extractPdfContentForAI aiConfig env.pdf b
      (.ok r.content, r.budget)
    else if extension ∈ IMAGE_FILE_EXTENSIONS then
      let mimeType :=
        if file.contentType = [] then str "image/" ++ extension
        else file.contentType
      let (content, b') :=
        extractImageOCRContent aiConfig mimeType file.filename env.imageAtt b
      (.ok content, b')
    else (.ok none, b)

/-- The three header lines of an attachment section. -/
def sectionHeaderLines (file : FileMeta) : List Str :=
  [str "File: " ++ file.filename,
   str "Type: " ++ file.contentType,
   str "Size: " ++ formatFileSize file.size]

/-- The per-attachment loop of `extractSubmissionContent`: build each section,
replacing a failed extraction with the could-not-be-processed placeholder and
continuing with the remaining attachments. -/
def attachmentsLoop (aiConfig : Option AIConfig) :
    List (FileMeta × AttachmentEnv) → VisionBudget → List Str × VisionBudget
  | [], b => ([], b)
  | (file, env) :: rest, b =>
    let (result, b') := extractAttachmentContentForAI file aiConfig env b
    let contentLine :=
      match result with
      | .ok (some extractedContent) =>
        if extractedContent = [] then
          str "Extracted Content:\n(No extractable content detected)"
        else str "Extracted Content:\n" ++ extractedContent
      | .ok none => str "Extracted Content:\n(No extractable content detected)"
      | .error _ => str "Extracted Content:\n(Content could not be processed)"
    let sectionText := joinSep (str "\n") (sectionHeaderLines file ++ [contentLine])
    let (sections, b'') := attachmentsLoop aiConfig rest b'
    (sectionText :: sections, b'')

/-- A submission as read by `extractSubmissionContent`; each attachment is
paired with the environment of external outcomes for it. -/
structure Submission where
  submissionType : Str
  body : Str
  url : Str
  attachments : List (FileMeta × AttachmentEnv)

/-- The trailing vision-usage summary appended when the enabled budget
recorded at least one use. -/
def visionSummarySuffix (aiConfig : Option AIConfig) (b : VisionBudget) : Str :=
  if b.enabled && decide (0 < b.used) then
    let uniqueSources := jsSetDedup b.sources
    let sources :=
      if uniqueSources.length ≠ 0 then joinSep (str ", ") uniqueSources
      else str "n/a"
    let modelName :=
      match aiConfig with
      | some c => if c.textModel = [] then str "selected vision model" else c.textModel
      | none => str "selected vision model"
    str "\n\nVISION ANALYSIS SUMMARY:\n- Images analyzed with " ++ modelName ++
      str ": " ++ natToStr b.used ++ str "\n- Sources: " ++ sources
  else []

/-- `extractSubmissionContent` from the source: dispatch on the submission
type, thread one vision budget through every attachment, and append the
vision-usage summary.  Totality of this definition is the never-throws
contract. -/
def extractSubmissionContent (submission : Submission)
    (aiConfig : Option AIConfig) : Str :=
  let visionBudget := createVisionBudget aiConfig
  let (content, finalBudget) :=
    if submission.submissionType = str "online_text_entry" then
      (str "TEXT SUBMISSION:\n" ++
        (if submission.body = [] then str "No content" else submission.body),
       visionBudget)
    else if submission.submissionType = str "online_upload" then
      if submission.attachments.isEmpty then (str "No files attached", visionBudget)
      else
        let (fileSections, b') :=
          attachmentsLoop aiConfig submission.attachments visionBudget
        (str "SUBMITTED FILES:\n\n" ++ joinSep (str "\n\n---\n\n") fileSections,
         b')
    else if submission.submissionType = str "online_url" then
      (str "URL SUBMISSION:\n" ++ submission.url, visionBudget)
    else if submission.submissionType = str "media_recording" then
      (str "MEDIA RECORDING:\nNote: This is an audio/video submission. Please review the media file manually.",
       visionBudget)
    else (str "Submission type: " ++ submission.submissionType, visionBudget)
  content ++ visionSummarySuffix aiConfig finalBudget

/-! ## OCR adapter

The module-level `ocrWorkerPromise` is modelled as explicit state:
`none` when the variable is unset, `some true` when the memoized promise
resolves to a worker, `some false` when it resolves to `null` after a failed
initialization.  Each call carries an environment describing what the external
engine would do. -/

/-- External outcomes for one OCR recognition call. -/
structure OcrEnv where
  tesseractAvailable : Bool
  initSucceeds : Bool
  recognizeResult : Except Unit (Str × Option ℚ)

/-- `ensureOCRWorker` from the source.  Returns (worker present, new memo
state, whether a fresh initialization was attempted). -/
def ensureOCRWorker (env : OcrEnv) (memo : Option Bool) :
    Bool × Option Bool × Bool :=
  if !env.tesseractAvailable then (false, memo, false)
  else
    match memo with
    | none => (env.initSucceeds, some env.initSucceeds, true)
    | some ready => (ready, some ready, false)

/-- Result of one `recognizeImageTextFromData` call, with the memo state it
leaves behind and whether it attempted worker initialization. -/
structure OcrCallResult where
  text : Str
  confidence : Option ℚ
  memo : Option Bool
  initAttempted : Bool
deriving DecidableEq

/-- `recognizeImageTextFromData` from the source.  Note the
`ocrWorkerPromise = null` reset when no worker was obtained. -/
def recognizeImageTextFromData (dataUrl : Str) (env : OcrEnv)
    (memo : Option Bool) : OcrCallResult :=
  if dataUrl = [] then ⟨[], none, memo, false⟩
  else
    let (worker, memo1, initAttempted) := ensureOCRWorker env memo
    if !worker then ⟨[], none, none, initAttempted⟩
    else
      match env.recognizeResult with
      | .ok (text, confidence) => ⟨text, confidence, memo1, initAttempted⟩
      | .error _ => ⟨[], none, memo1, initAttempted⟩

/-- A sequence of OCR recognition calls within one process, threading the
module-level memo state. -/
def runOcrCalls : List (Str × OcrEnv) → Option Bool →
    List OcrCallResult × Option Bool
  | [], memo => ([], memo)
  | (dataUrl, env) :: rest, memo =>
    let r := recognizeImageTextFromData dataUrl env memo
    let (rs, memo') := runOcrCalls rest r.memo
    (r :: rs, memo')

/-! ## Helper lemmas about substring occurrence and joining -/

theorem startsWithChars_self_append (p t : Str) :
    startsWithChars p (p ++ t) = true := by
  induction p with
  | nil => rfl
  | cons c cs ih => simp [startsWithChars, ih]

theorem startsWithChars_append_right (p : Str) {u : Str} (t : Str)
    (h : startsWithChars p u = true) : startsWithChars p (u ++ t) = true := by
  induction p generalizing u with
  | nil => rfl
  | cons c cs ih =>
    cases u with
    | nil => simp [startsWithChars] at h
    | cons d ds =>
      simp only [startsWithChars, Bool.and_eq_true] at h
      simp only [List.cons_append, startsWithChars, Bool.and_eq_true]
      exact ⟨h.1, ih h.2⟩

theorem occursInB_nil_pat (s : Str) : occursInB [] s = true := by
  induction s <;> simp [occursInB, startsWithChars, *]

theorem occursInB_here (p t : Str) : occursInB p (p ++ t) = true := by
  cases p with
  | nil => exact occursInB_nil_pat t
  | cons c cs =>
    simp only [List.cons_append, occursInB, Bool.or_eq_true]
    exact Or.inl (startsWithChars_self_append (c :: cs) t)

theorem occursInB_cons (p : Str) (c : Char) (s : Str)
    (h : occursInB p s = true) : occursInB p (c :: s) = true := by
  simp [occursInB, h]

theorem occursInB_append_left (p l : Str) {s : Str}
    (h : occursInB p s = true) : occursInB p (l ++ s) = true := by
  induction l with
  | nil => simpa
  | cons c cs ih => simpa using occursInB_cons p c (cs ++ s) ih

theorem occursInB_append_right (p : Str) {s : Str} (t : Str)
    (h : occursInB p s = true) : occursInB p (s ++ t) = true := by
  induction s with
  | nil =>
    cases p with
    | nil => exact occursInB_nil_pat t
    | cons c cs => simp [occursInB, startsWithChars] at h
  | cons c cs ih =>
    simp only [occursInB, Bool.or_eq_true] at h
    simp only [List.cons_append, occursInB, Bool.or_eq_true]
    rcases h with h1 | h2
    · exact Or.inl (startsWithChars_append_right p t h1)
    · exact Or.inr (ih h2)

theorem occursInB_joinSep (sep p x : Str) (l : List Str) (hx : x ∈ l)
    (h : occursInB p x = true) : occursInB p (joinSep sep l) = true := by
  induction l with
  | nil => cases hx
  | cons y ys ih =>
    cases ys with
    | nil =>
      rcases List.mem_singleton.mp hx with rfl
      simpa [joinSep] using h
    | cons z zs =>
      rcases List.mem_cons.mp hx with rfl | hmem
      · exact occursInB_append_right p _ (occursInB_append_right p _ h)
      · exact occursInB_append_left p _ (ih hmem)

/-! ## Budget behaviour of one `processImageForAI` call -/

theorem visionStage_step (cfg : Option AIConfig) (vr : Except Unit Str)
    (label : Str) (su fv : Bool) (b : VisionBudget) :
    (visionStage cfg vr label su fv b).2.1.enabled = b.enabled ∧
    (visionStage cfg vr label su fv b).2.1.max = b.max ∧
    ((visionStage cfg vr label su fv b).2.2.1 = false →
      (visionStage cfg vr label su fv b).2.1 = b) ∧
    ((visionStage cfg vr label su fv b).2.2.1 = true →
      b.used < b.max ∧
      (visionStage cfg vr label su fv b).2.1.used = b.used + 1) ∧
    ((visionStage cfg vr label su fv b).2.2.2 = true →
      (visionStage cfg vr label su fv b).2.2.1 = true ∧
      visionOkNonempty vr = true ∧
      (visionStage cfg vr label su fv b).2.1.sources = b.sources ++ [label]) ∧
    ((visionStage cfg vr label su fv b).2.2.2 = false →
      (visionStage cfg vr label su fv b).2.1.sources = b.sources) := by
  unfold visionStage
  repeat' split
  all_goals try simp_all [visionOkNonempty]
  all_goals repeat' split
  all_goals simp_all [visionOkNonempty]

theorem processImageForAI_proj (cfg : Option AIConfig) (env : ImageEnv)
    (lbl : Str) (fv : Bool) (b : VisionBudget) (hd : env.dataUrl ≠ []) :
    (processImageForAI cfg env lbl fv b).budget =
      (visionStage cfg env.visionResult (effectiveLabel lbl)
        (analyzeForVision env.metrics (jsTrim env.ocrRawText)
          (toLowerStr (if env.mimeType = [] then str "image/png" else env.mimeType))
          fv).shouldUseVision fv b).2.1 ∧
    (processImageForAI cfg env lbl fv b).visionAttempted =
      (visionStage cfg env.visionResult (effectiveLabel lbl)
        (analyzeForVision env.metrics (jsTrim env.ocrRawText)
          (toLowerStr (if env.mimeType = [] then str "image/png" else env.mimeType))
          fv).shouldUseVision fv b).2.2.1 ∧
    (processImageForAI cfg env lbl fv b).visionSuccessful =
      (visionStage cfg env.visionResult (effectiveLabel lbl)
        (analyzeForVision env.metrics (jsTrim env.ocrRawText)
          (toLowerStr (if env.mimeType = [] then str "image/png" else env.mimeType))
          fv).shouldUseVision fv b).2.2.2 := by
  unfold processImageForAI
  rw [if_neg hd]
  rcases hvs : visionStage cfg env.visionResult (effectiveLabel lbl)
      (analyzeForVision env.metrics (jsTrim env.ocrRawText)
        (toLowerStr (if env.mimeType = [] then str "image/png" else env.mimeType))
        fv).shouldUseVision fv b with ⟨vs, b1, att, succ⟩
  simp only [hvs]
  refine ⟨?_, ?_, ?_⟩
  all_goals repeat' split
  all_goals rfl

theorem processImageForAI_step (cfg : Option AIConfig) (env : ImageEnv)
    (lbl : Str) (fv : Bool) (b : VisionBudget) :
    (processImageForAI cfg env lbl fv b).budget.enabled = b.enabled ∧
    (processImageForAI cfg env lbl fv b).budget.max = b.max ∧
    ((processImageForAI cfg env lbl fv b).visionAttempted = false →
      (processImageForAI cfg env lbl fv b).budget = b) ∧
    ((processImageForAI cfg env lbl fv b).visionAttempted = true →
      b.used < b.max ∧
      (processImageForAI cfg env lbl fv b).budget.used = b.used + 1) ∧
    ((processImageForAI cfg env lbl fv b).visionSuccessful = true →
      (processImageForAI cfg env lbl fv b).visionAttempted = true ∧
      visionOkNonempty env.visionResult = true ∧
      (processImageForAI cfg env lbl fv b).budget.sources =
        b.sources ++ [effectiveLabel lbl]) ∧
    ((processImageForAI cfg env lbl fv b).visionSuccessful = false →
      (processImageForAI cfg env lbl fv b).budget.sources = b.sources) := by
  by_cases hd : env.dataUrl = []
  · simp [processImageForAI, hd]
  · obtain ⟨h1, h2, h3⟩ := processImageForAI_proj cfg env lbl fv b hd
    rw [h1, h2, h3]
    exact visionStage_step cfg env.visionResult (effectiveLabel lbl) _ fv b

/-- Aggregate budget facts for one `processImageForAI` call. -/
theorem processImageForAI_budget_facts (cfg : Option AIConfig) (env : ImageEnv)
    (lbl : Str) (fv : Bool) (b : VisionBudget) :
    (processImageForAI cfg env lbl fv b).budget.enabled = b.enabled ∧
    (processImageForAI cfg env lbl fv b).budget.max = b.max ∧
    b.used ≤ (processImageForAI cfg env lbl fv b).budget.used ∧
    (b.used ≤ b.max → (processImageForAI cfg env lbl fv b).budget.used ≤ b.max) ∧
    ((processImageForAI cfg env lbl fv b).budget.sources.length + b.used ≤
      b.sources.length + (processImageForAI cfg env lbl fv b).budget.used) := by
  obtain ⟨he, hm, hf, ht, hsuc, hfail⟩ := processImageForAI_step cfg env lbl fv b
  by_cases ha : (processImageForAI cfg env lbl fv b).visionAttempted = true
  · obtain ⟨hlt, hused⟩ := ht ha
    by_cases hs : (processImageForAI cfg env lbl fv b).visionSuccessful = true
    · obtain ⟨-, -, hsrc⟩ := hsuc hs
      exact ⟨he, hm, by omega, fun _ => by omega, by simp [hused, hsrc]; omega⟩
    · have hsrc := hfail (by simpa using hs)
      exact ⟨he, hm, by omega, fun _ => by omega, by simp [hused, hsrc]⟩
  · have hb := hf (by simpa using ha)
    rw [hb]
    exact ⟨rfl, rfl, le_refl _, fun h => h, le_refl _⟩

theorem runImages_append (cfg : Option AIConfig) (l1 l2 : List ImageStep)
    (b : VisionBudget) :
    runImages cfg (l1 ++ l2) b =
      ((runImages cfg l1 b).1 ++ (runImages cfg l2 (runImages cfg l1 b).2).1,
        (runImages cfg l2 (runImages cfg l1 b).2).2) := by
  induction l1 generalizing b with
  | nil => simp [runImages]
  | cons s rest ih => simp [runImages, ih]

theorem runImages_budget (cfg : Option AIConfig) (steps : List ImageStep)
    (b : VisionBudget) :
    (runImages cfg steps b).2.enabled = b.enabled ∧
    (runImages cfg steps b).2.max = b.max ∧
    b.used ≤ (runImages cfg steps b).2.used ∧
    (b.used ≤ b.max → (runImages cfg steps b).2.used ≤ b.max) ∧
    (b.sources.length ≤ b.used →
      (runImages cfg steps b).2.sources.length ≤ (runImages cfg steps b).2.used) := by
  induction steps generalizing b with
  | nil => simp [runImages]
  | cons s rest ih =>
    obtain ⟨he, hm, hu, hb, hl⟩ :=
      processImageForAI_budget_facts cfg s.env s.sourceLabel s.forceVision b
    obtain ⟨ihe, ihm, ihu, ihb, ihs⟩ :=
      ih (processImageForAI cfg s.env s.sourceLabel s.forceVision b).budget
    refine ⟨?_, ?_, ?_, ?_, ?_⟩ <;>
      simp only [runImages]
    · rw [ihe, he]
    · rw [ihm, hm]
    · omega
    · intro h
      have := ihb (by omega)
      omega
    · intro h
      exact ihs (by omega)

/-- The `i`-th result of a pass is `processImageForAI` applied to the budget
reached after the first `i` steps. -/
theorem runImages_getD (cfg : Option AIConfig) (steps : List ImageStep)
    (b : VisionBudget) (i : Nat) (hi : i < steps.length) (d : ImageResult) :
    (runImages cfg steps b).1.getD i d =
      processImageForAI cfg (steps.get ⟨i, hi⟩).env
        (steps.get ⟨i, hi⟩).sourceLabel (steps.get ⟨i, hi⟩).forceVision
        (runImages cfg (steps.take i) b).2 := by
  induction steps generalizing i b with
  | nil => cases hi
  | cons s rest ih =>
    cases i with
    | zero => simp [runImages]
    | succ j =>
      have hj : j < rest.length := by simpa using hi
      simp only [runImages, List.getD_cons_succ, List.take_succ_cons,
        List.get_cons_succ]
      exact ih _ j hj

/-- The budget after `i + 1` steps is the budget after `i` steps updated by
the `i`-th call. -/
theorem runImages_take_succ (cfg : Option AIConfig) (steps : List ImageStep)
    (b : VisionBudget) (i : Nat) (hi : i < steps.length) :
    (runImages cfg (steps.take (i + 1)) b).2 =
      (processImageForAI cfg (steps.get ⟨i, hi⟩).env
        (steps.get ⟨i, hi⟩).sourceLabel (steps.get ⟨i, hi⟩).forceVision
        (runImages cfg (steps.take i) b).2).budget := by
  rw [List.take_succ, runImages_append]
  have hsome : steps[i]? = some (steps.get ⟨i, hi⟩) := by
    rw [List.getElem?_eq_getElem hi]
    simp
  rw [hsome]
  simp [runImages]

/-- C1: for every OCR text length (after whitespace normalization), optional
structural metrics and `forceVision` flag, the source's vision decision
`shouldTriggerVision` coincides with the specification's ordered reference
rule set (forceVision; text-heavy cutoff 220; absent-metrics rule; short-text
cutoff 40; edge-density 0.12 / color-diversity 45 thresholds). -/
theorem vision_decision_matches_reference_rules (textLength : Nat)
    (metricsData : Option StructMetrics) (forceVision : Bool) :
    shouldTriggerVision textLength metricsData forceVision =
      visionDecisionSpec textLength metricsData forceVision := rfl

/-- C2: during any extraction pass (any sequence of image-processing steps
threaded through the budget created by `createVisionBudget`), the budget after
any number of steps satisfies `used ≤ max` with `max = 3` (and `0 ≤ used`
holds by the `Nat` type), and `used` never decreases from one step to the
next. -/
theorem vision_budget_bounded_and_monotone (cfg : Option AIConfig)
    (steps : List ImageStep) (n : Nat) :
    (runImages cfg (steps.take n) (createVisionBudget cfg)).2.used ≤
      (createVisionBudget cfg).max ∧
    (createVisionBudget cfg).max = 3 ∧
    (runImages cfg (steps.take n) (createVisionBudget cfg)).2.max = 3 ∧
    (runImages cfg (steps.take n) (createVisionBudget cfg)).2.used ≤
      (runImages cfg (steps.take (n + 1)) (createVisionBudget cfg)).2.used := by
  have h0 : (createVisionBudget cfg).used ≤ (createVisionBudget cfg).max := by
    simp [createVisionBudget]
  obtain ⟨-, hm, -, hb, -⟩ :=
    runImages_budget cfg (steps.take n) (createVisionBudget cfg)
  have hmax3 : (createVisionBudget cfg).max = 3 := by
    simp [createVisionBudget, VISION_MAX_ANALYSES_PER_SUBMISSION]
  refine ⟨hb h0, hmax3, by rw [hm, hmax3], ?_⟩
  rw [List.take_succ, runImages_append]
  exact (runImages_budget cfg _ _).2.2.1

/-- An enabled budget was necessarily created from an openai configuration
with a non-empty API key. -/
theorem createVisionBudget_enabled (cfg : Option AIConfig)
    (h : (createVisionBudget cfg).enabled = true) :
    ∃ c, cfg = some c ∧ c.apiKey ≠ [] ∧ c.platform = str "openai" := by
  rcases cfg with _ | c
  · simp [createVisionBudget] at h
  · simp only [createVisionBudget, Bool.and_eq_true, decide_eq_true_eq] at h
    exact ⟨c, rfl, h.1.2, h.1.1⟩

/-- With an openai configuration, an enabled budget with headroom, a
non-empty data URL and `forceVision = true`, `processImageForAI` enters the
vision branch (the source's `visionAttempted` flag is set). -/
theorem processImageForAI_attempts (cfg : Option AIConfig) (c : AIConfig)
    (env : ImageEnv) (lbl : Str) (b : VisionBudget)
    (hcfg : cfg = some c) (hkey : c.apiKey ≠ [])
    (hplat : c.platform = str "openai") (hen : b.enabled = true)
    (hu : b.used < b.max) (hd : env.dataUrl ≠ []) :
    (processImageForAI cfg env lbl true b).visionAttempted = true := by
  obtain ⟨-, h2, -⟩ := processImageForAI_proj cfg env lbl true b hd
  rw [h2]
  subst hcfg
  unfold visionStage
  simp only [hen, hkey, hplat, hu]
  simp only [Bool.or_true, Bool.and_true, Bool.true_and]
  rw [if_pos]
  · rcases env.visionResult with e | s
    case' error => simp
    case' ok => by_cases hs : s = [] <;> simp [hs]
  · simp [hkey, hplat, hu]

/-- C7: for every image processed with `forceVision = true` (with a non-empty
data URL), if the pass's vision budget is enabled and has `used < max` at that
point, the call enters the vision-request branch, independent of the image's
OCR text and structural metrics. -/
theorem forced_vision_always_attempted (cfg : Option AIConfig)
    (steps : List ImageStep) (i : Nat) (hi : i < steps.length)
    (hfv : (steps.get ⟨i, hi⟩).forceVision = true)
    (hd : (steps.get ⟨i, hi⟩).env.dataUrl ≠ [])
    (hen : (runImages cfg (steps.take i) (createVisionBudget cfg)).2.enabled = true)
    (hu : (runImages cfg (steps.take i) (createVisionBudget cfg)).2.used <
      (runImages cfg (steps.take i) (createVisionBudget cfg)).2.max) :
    ((runImages cfg steps (createVisionBudget cfg)).1.getD i
      ⟨none, createVisionBudget cfg, false, false⟩).visionAttempted = true := by
  rw [runImages_getD cfg steps (createVisionBudget cfg) i hi]
  have henv := (runImages_budget cfg (steps.take i) (createVisionBudget cfg)).1
  obtain ⟨c, hc, hkey, hplat⟩ := createVisionBudget_enabled cfg (by rw [← henv]; exact hen)
  rw [hfv] at *
  exact processImageForAI_attempts cfg c _ _ _ hc hkey hplat hen hu hd

/-- When the decision engine (or `forceVision`) asks for vision but the budget
is disabled or exhausted, the vision stage pushes the matching skip
placeholder section, leaves the budget untouched and attempts nothing. -/
theorem visionStage_skip (cfg : Option AIConfig) (vr : Except Unit Str)
    (label : Str) (su fv : Bool) (b : VisionBudget)
    (hsf : su = true ∨ fv = true)
    (hcase : b.enabled = false ∨ b.max ≤ b.used) :
    visionStage cfg vr label su fv b =
      ([if b.enabled = true then
          str "Vision Summary:\n(Skipped – vision analysis limit reached for this submission)"
        else
          str "Vision Summary:\n(Skipped – current model does not support vision input)"],
       b, false, false) := by
  have hsf' : (su || fv) = true := by rcases hsf with h | h <;> simp [h]
  cases hb : b.enabled with
  | false => simp [visionStage, hb, hsf']
  | true =>
    have hmu : b.max ≤ b.used := by
      rcases hcase with h | h
      · rw [hb] at h; cases h
      · exact h
    have hdec : decide (b.used < b.max) = false := by
      simp only [decide_eq_false_iff_not]
      omega
    simp [visionStage, hb, hsf', hdec, hmu]

/-- C8: for every image where the decision engine says use vision (or
`forceVision` is set): with a disabled budget the analysis embeds the
"current model does not support vision input" skip placeholder, with an
enabled but exhausted budget it embeds the "vision analysis limit reached"
skip placeholder, and in both cases no vision request is attempted. -/
theorem vision_skip_placeholders_embedded (cfg : Option AIConfig)
    (env : ImageEnv) (lbl : Str) (fv : Bool) (b : VisionBudget)
    (hd : env.dataUrl ≠ [])
    (hdec : shouldTriggerVision (normWS (jsTrim env.ocrRawText)).length
        env.metrics fv = true ∨ fv = true)
    (hcase : b.enabled = false ∨ b.max ≤ b.used) :
    (processImageForAI cfg env lbl fv b).visionAttempted = false ∧
    occursInB
      (if b.enabled = true then
        str "(Skipped – vision analysis limit reached for this submission)"
       else str "(Skipped – current model does not support vision input)")
      ((processImageForAI cfg env lbl fv b).analysis.getD []) = true := by
  have hsu : (analyzeForVision env.metrics (jsTrim env.ocrRawText)
      (toLowerStr (if env.mimeType = [] then str "image/png" else env.mimeType))
      fv).shouldUseVision = true ∨ fv = true := hdec
  have hstage := visionStage_skip cfg env.visionResult (effectiveLabel lbl)
    (analyzeForVision env.metrics (jsTrim env.ocrRawText)
      (toLowerStr (if env.mimeType = [] then str "image/png" else env.mimeType))
      fv).shouldUseVision fv b hsu hcase
  have hhead : occursInB
      (if b.enabled = true then
        str "(Skipped – vision analysis limit reached for this submission)"
       else str "(Skipped – current model does not support vision input)")
      (if b.enabled = true then
        str "Vision Summary:\n(Skipped – vision analysis limit reached for this submission)"
       else str "Vision Summary:\n(Skipped – current model does not support vision input)") = true := by
    cases b.enabled <;> decide
  constructor
  · rw [(processImageForAI_proj cfg env lbl fv b hd).2.1, hstage]
  · set pat := (if b.enabled = true then
        str "(Skipped – vision analysis limit reached for this submission)"
       else str "(Skipped – current model does not support vision input)") with hpat
    set headSec := (if b.enabled = true then
        str "Vision Summary:\n(Skipped – vision analysis limit reached for this submission)"
       else str "Vision Summary:\n(Skipped – current model does not support vision input)") with hsec
    simp only [processImageForAI, if_neg hd]
    rw [hstage]
    rw [if_neg (by simp)]
    simp only [Option.getD_some]
    exact occursInB_append_left _ _
      (occursInB_joinSep _ _ _ _
        (List.mem_append_left _ (List.mem_append_left _ (List.mem_cons_self _ _)))
        hhead)

/-- C10: during a pass, the recorded source labels never outnumber `used`;
every attempted vision request increments `used` by one (also when the
request fails or returns an empty summary); a failed or empty attempt leaves
`sources` unchanged; and a source label is recorded exactly by a successful
non-empty response. -/
theorem vision_used_counts_attempts_sources_only_success
    (cfg : Option AIConfig) (steps : List ImageStep) (i n : Nat)
    (hi : i < steps.length) :
    (runImages cfg (steps.take n) (createVisionBudget cfg)).2.sources.length ≤
      (runImages cfg (steps.take n) (createVisionBudget cfg)).2.used ∧
    (((runImages cfg steps (createVisionBudget cfg)).1.getD i
        ⟨none, createVisionBudget cfg, false, false⟩).visionAttempted = true →
      (runImages cfg (steps.take (i + 1)) (createVisionBudget cfg)).2.used =
        (runImages cfg (steps.take i) (createVisionBudget cfg)).2.used + 1) ∧
    (((runImages cfg steps (createVisionBudget cfg)).1.getD i
        ⟨none, createVisionBudget cfg, false, false⟩).visionAttempted = true →
      visionOkNonempty (steps.get ⟨i, hi⟩).env.visionResult = false →
      (runImages cfg (steps.take (i + 1)) (createVisionBudget cfg)).2.sources =
        (runImages cfg (steps.take i) (createVisionBudget cfg)).2.sources) ∧
    (((runImages cfg steps (createVisionBudget cfg)).1.getD i
        ⟨none, createVisionBudget cfg, false, false⟩).visionSuccessful = true →
      visionOkNonempty (steps.get ⟨i, hi⟩).env.visionResult = true ∧
      (runImages cfg (steps.take (i + 1)) (createVisionBudget cfg)).2.sources =
        (runImages cfg (steps.take i) (createVisionBudget cfg)).2.sources ++
          [effectiveLabel (steps.get ⟨i, hi⟩).sourceLabel]) := by
  have hsl := (runImages_budget cfg (steps.take n) (createVisionBudget cfg)).2.2.2.2
  refine ⟨hsl (by simp [createVisionBudget]), ?_, ?_, ?_⟩ <;>
    rw [runImages_getD cfg steps (createVisionBudget cfg) i hi,
      runImages_take_succ cfg steps (createVisionBudget cfg) i hi]
  · intro ha
    exact ((processImageForAI_step cfg _ _ _ _).2.2.2.1 ha).2
  · intro ha hfail
    obtain ⟨-, -, -, -, hsuc, hfl⟩ := processImageForAI_step cfg
      (steps.get ⟨i, hi⟩).env (steps.get ⟨i, hi⟩).sourceLabel
      (steps.get ⟨i, hi⟩).forceVision
      (runImages cfg (steps.take i) (createVisionBudget cfg)).2
    by_cases hs : (processImageForAI cfg (steps.get ⟨i, hi⟩).env
        (steps.get ⟨i, hi⟩).sourceLabel (steps.get ⟨i, hi⟩).forceVision
        (runImages cfg (steps.take i) (createVisionBudget cfg)).2).visionSuccessful = true
    · obtain ⟨-, hok, -⟩ := hsuc hs
      rw [hok] at hfail
      cases hfail
    · exact hfl (by simpa using hs)
  · intro hs
    obtain ⟨-, -, -, -, hsuc, -⟩ := processImageForAI_step cfg
      (steps.get ⟨i, hi⟩).env (steps.get ⟨i, hi⟩).sourceLabel
      (steps.get ⟨i, hi⟩).forceVision
      (runImages cfg (steps.take i) (createVisionBudget cfg)).2
    obtain ⟨-, hok, hsrc⟩ := hsuc hs
    exact ⟨hok, hsrc⟩

/-! ## Per-attachment failure isolation -/

theorem attachmentsLoop_length (cfg : Option AIConfig)
    (files : List (FileMeta × AttachmentEnv)) (b : VisionBudget) :
    (attachmentsLoop cfg files b).1.length = files.length := by
  induction files generalizing b with
  | nil => simp [attachmentsLoop]
  | cons fe rest ih =>
    obtain ⟨file, env⟩ := fe
    simp [attachmentsLoop, ih]

/-- The section built for an attachment whose extraction threw is the header
followed by the could-not-be-processed placeholder, whatever the budget
state. -/
theorem attachmentsLoop_thrown_section (cfg : Option AIConfig)
    (files : List (FileMeta × AttachmentEnv)) (b : VisionBudget) (i : Nat)
    (hi : i < files.length)
    (hthrown : (files.get ⟨i, hi⟩).2.thrown = true) :
    (attachmentsLoop cfg files b).1.getD i [] =
      joinSep (str "\n") (sectionHeaderLines (files.get ⟨i, hi⟩).1 ++
        [str "Extracted Content:\n(Content could not be processed)"]) := by
  induction files generalizing i b with
  | nil => cases hi
  | cons fe rest ih =>
    obtain ⟨file, env⟩ := fe
    cases i with
    | zero =>
      simp only [List.get] at hthrown
      simp [attachmentsLoop, extractAttachmentContentForAI, hthrown]
    | succ j =>
      have hj : j < rest.length := by simpa using hi
      simp only [attachmentsLoop, List.getD_cons_succ]
      exact ih _ j hj (by simpa using hthrown)

/-- C3: `extractSubmissionContent` is a total function producing a string; for
an upload submission, an attachment whose extraction throws yields a section
that carries the "(Content could not be processed)" placeholder, processing
continues so there is exactly one section per attachment in order, and the
placeholder is embedded in the returned submission content. -/
theorem extraction_failure_isolated_per_attachment (cfg : Option AIConfig)
    (body url : Str) (files : List (FileMeta × AttachmentEnv)) (i : Nat)
    (hi : i < files.length)
    (hthrown : (files.get ⟨i, hi⟩).2.thrown = true) :
    (attachmentsLoop cfg files (createVisionBudget cfg)).1.length =
      files.length ∧
    (attachmentsLoop cfg files (createVisionBudget cfg)).1.getD i [] =
      joinSep (str "\n") (sectionHeaderLines (files.get ⟨i, hi⟩).1 ++
        [str "Extracted Content:\n(Content could not be processed)"]) ∧
    occursInB (str "(Content could not be processed)")
      (extractSubmissionContent ⟨str "online_upload", body, url, files⟩ cfg) =
      true := by
  refine ⟨attachmentsLoop_length cfg files _,
    attachmentsLoop_thrown_section cfg files _ i hi hthrown, ?_⟩
  have hsec : occursInB (str "(Content could not be processed)")
      ((attachmentsLoop cfg files (createVisionBudget cfg)).1.getD i []) = true := by
    rw [attachmentsLoop_thrown_section cfg files _ i hi hthrown]
    exact occursInB_joinSep _ _ _ _
      (List.mem_append_right _ (List.mem_cons_self _ _)) (by decide)
  have hlen : i < (attachmentsLoop cfg files (createVisionBudget cfg)).1.length := by
    rw [attachmentsLoop_length]; exact hi
  have hmem : (attachmentsLoop cfg files (createVisionBudget cfg)).1.getD i [] ∈
      (attachmentsLoop cfg files (createVisionBudget cfg)).1 := by
    rw [List.getD_eq_getElem _ _ hlen]
    exact List.getElem_mem hlen
  have hemp : files.isEmpty = false := by
    cases files
    · cases hi
    · rfl
  simp only [extractSubmissionContent]
  rw [if_neg (by decide), if_pos (by decide), if_neg (by simp [hemp])]
  exact occursInB_append_right _ _
    (occursInB_append_left _ _
      (occursInB_joinSep _ _ _ _ hmem hsec))

/-! ## PDF page processing -/

/-- Placeholder image environment (used only as a `getD` default). -/
def emptyImageEnv : ImageEnv := ⟨[], [], [], none, Except.error ()⟩

/-- Placeholder PDF page (used only as a `getD` default). -/
def emptyPdfPage : PdfPage := ⟨[], emptyImageEnv⟩

/-- The per-page loop makes exactly one `processImageForAI` call per page, at
ascending page numbers starting from its counter, with `forceVision` exactly
when the page's text layer is empty. -/
theorem pdfPagesLoop_calls (cfg : Option AIConfig) (pages : List PdfPage)
    (k : Nat) (b : VisionBudget) :
    (pdfPagesLoop cfg pages k b).2.2.length = pages.length ∧
    ∀ i, i < pages.length →
      (pdfPagesLoop cfg pages k b).2.2.getD i (0, false) =
        (k + i, decide (pdfPageText (pages.getD i emptyPdfPage) = [])) := by
  induction pages generalizing k b with
  | nil => simp [pdfPagesLoop]
  | cons page rest ih =>
    constructor
    · simp [pdfPagesLoop, (ih (k + 1)
        (processImageForAI cfg page.image (str "PDF Page " ++ natToStr k)
          (decide (pdfPageText page = [])) b).budget).1]
    · intro i hilt
      cases i with
      | zero => simp [pdfPagesLoop]
      | succ j =>
        have hj : j < rest.length := by simpa using hilt
        simp only [pdfPagesLoop, List.getD_cons_succ, List.getD_cons_succ]
        rw [(ih (k + 1) _).2 j hj]
        congr 1
        omega

/-- C4: on the success path, a PDF attachment processes exactly
`min(numPages, 5)` pages through image analysis, in ascending page order,
with `forceVision` set exactly for pages whose extracted text layer is empty,
and the sections end with the one limit note exactly when the document has
more than 5 pages. -/
theorem pdf_page_limit_order_forcevision_note (cfg : Option AIConfig)
    (env : PdfEnv) (b : VisionBudget) (i : Nat)
    (hlib : env.libAvailable = true) (hfetch : env.fetchOk = true)
    (hdecode : env.decodeOk = true)
    (hpages : env.numPages ≤ env.pages.length)
    (hi : i < min env.numPages DOCUMENT_OCR_PAGE_LIMIT) :
    (extractPdfContentForAI cfg env b).pageCalls.length =
      min env.numPages 5 ∧
    (extractPdfContentForAI cfg env b).pageCalls.getD i (0, false) =
      (i + 1, decide (pdfPageText (env.pages.getD i emptyPdfPage) = [])) ∧
    (extractPdfContentForAI cfg env b).sections =
      (pdfPagesLoop cfg
        (env.pages.take (min env.numPages DOCUMENT_OCR_PAGE_LIMIT)) 1 b).1 ++
        (if 5 < env.numPages then
          [str "Note: OCR limited to first " ++
            natToStr (min env.numPages DOCUMENT_OCR_PAGE_LIMIT) ++
            str " pages out of " ++ natToStr env.numPages ++ str "."]
         else []) := by
  obtain ⟨lib, fok, dok, np, pages⟩ := env
  simp only at hlib hfetch hdecode hpages hi
  subst hlib hfetch hdecode
  have hL5 : DOCUMENT_OCR_PAGE_LIMIT = 5 := rfl
  obtain ⟨hlen, hget⟩ :=
    pdfPagesLoop_calls cfg (pages.take (min np DOCUMENT_OCR_PAGE_LIMIT)) 1 b
  have htlen : (pages.take (min np DOCUMENT_OCR_PAGE_LIMIT)).length = min np 5 := by
    rw [List.length_take, hL5]
    exact Nat.min_eq_left (le_trans (Nat.min_le_left np 5) hpages)
  rcases hloop : pdfPagesLoop cfg (pages.take (min np DOCUMENT_OCR_PAGE_LIMIT)) 1 b
    with ⟨secs, b2, calls⟩
  rw [hloop] at hlen hget
  simp only at hlen hget
  simp only [extractPdfContentForAI, Bool.not_true, Bool.false_eq_true,
    if_false, hloop]
  refine ⟨by rw [hlen, htlen], ?_, ?_⟩
  · have hi' : i < (pages.take (min np DOCUMENT_OCR_PAGE_LIMIT)).length := by
      rw [htlen]
      simpa [hL5] using hi
    have hinp : i < pages.length := by
      have h1 : min np DOCUMENT_OCR_PAGE_LIMIT ≤ np := Nat.min_le_left _ _
      omega
    rw [hget i hi']
    have hgd : (pages.take (min np DOCUMENT_OCR_PAGE_LIMIT)).getD i emptyPdfPage =
        pages.getD i emptyPdfPage := by
      rw [List.getD_eq_getElem _ _ hi', List.getD_eq_getElem _ _ hinp]
      exact List.getElem_take pages
    rw [hgd]
    congr 1
    omega
  · by_cases h5 : 5 < np
    · rw [if_pos (by rw [hL5]; omega), if_pos h5]
    · rw [if_neg (by rw [hL5]; omega), if_neg h5]

/-! ## DOCX embedded-image limit -/

/-- Once the processed-image counter has reached the limit, the callback loop
analyses nothing further and leaves the budget untouched. -/
theorem docxImagesLoop_saturated (cfg : Option AIConfig)
    (imgs : List DocxImage) (p : Nat) (b : VisionBudget)
    (hp : DOCX_OCR_IMAGE_LIMIT ≤ p) :
    docxImagesLoop cfg imgs p b = ([], b) := by
  induction imgs generalizing b with
  | nil => simp [docxImagesLoop]
  | cons img rest ih =>
    simp only [docxImagesLoop]
    rw [if_pos hp]
    exact ih b

/-- The callback loop only ever looks at the first `limit - counter`
images. -/
theorem docxImagesLoop_take (cfg : Option AIConfig)
    (imgs : List DocxImage) (p : Nat) (b : VisionBudget) :
    docxImagesLoop cfg imgs p b =
      docxImagesLoop cfg (imgs.take (DOCX_OCR_IMAGE_LIMIT - p)) p b := by
  induction imgs generalizing p b with
  | nil => simp
  | cons img rest ih =>
    by_cases hp : DOCX_OCR_IMAGE_LIMIT ≤ p
    · have h0 : DOCX_OCR_IMAGE_LIMIT - p = 0 := by omega
      rw [h0, List.take_zero, docxImagesLoop_saturated cfg _ p b hp]
      simp [docxImagesLoop]
    · have h1 : DOCX_OCR_IMAGE_LIMIT - p = (DOCX_OCR_IMAGE_LIMIT - (p + 1)) + 1 := by
        omega
      rw [h1, List.take_succ_cons]
      simp only [docxImagesLoop]
      rw [if_neg hp, if_neg hp, ih (p + 1)]

/-- At most `limit - counter` analyses are produced by the callback loop. -/
theorem docxImagesLoop_length (cfg : Option AIConfig)
    (imgs : List DocxImage) (p : Nat) (b : VisionBudget) :
    (docxImagesLoop cfg imgs p b).1.length ≤ DOCX_OCR_IMAGE_LIMIT - p := by
  induction imgs generalizing p b with
  | nil => simp [docxImagesLoop]
  | cons img rest ih =>
    by_cases hp : DOCX_OCR_IMAGE_LIMIT ≤ p
    · rw [docxImagesLoop_saturated cfg _ p b hp]
      simp
    · simp only [docxImagesLoop]
      rw [if_neg hp]
      rcases hl : docxImagesLoop cfg rest (p + 1)
          (processImageForAI cfg (docxImageEnv img)
            (str "DOCX Embedded Image " ++ natToStr (p + 1)) false b).budget
        with ⟨analyses, b2⟩
      have hlen := ih (p + 1)
        (processImageForAI cfg (docxImageEnv img)
          (str "DOCX Embedded Image " ++ natToStr (p + 1)) false b).budget
      rw [hl] at hlen
      simp only at hlen
      simp only [hl]
      rcases (processImageForAI cfg (docxImageEnv img)
          (str "DOCX Embedded Image " ++ natToStr (p + 1)) false b).analysis
        with _ | a <;> simp <;> omega

/-- C5: a DOCX attachment's output (content and budget) only depends on the
first `DOCX_OCR_IMAGE_LIMIT = 5` embedded images — images past the fifth
contribute no analysis section and no note anywhere — and at most 5 image
analyses are produced. -/
theorem docx_image_limit_silent_drop (cfg : Option AIConfig) (env : DocxEnv)
    (b : VisionBudget) :
    extractDocxContentForAI cfg env b =
      extractDocxContentForAI cfg
        { env with images := env.images.take DOCX_OCR_IMAGE_LIMIT } b ∧
    (docxImagesLoop cfg env.images 0 b).1.length ≤ DOCX_OCR_IMAGE_LIMIT := by
  constructor
  · have h := docxImagesLoop_take cfg env.images 0 b
    rw [Nat.sub_zero] at h
    simp [extractDocxContentForAI, h]
  · simpa using docxImagesLoop_length cfg env.images 0 b

/-! ## Text-attachment truncation -/

/-- A text attachment whose fetched content exceeds 10,000 characters embeds
the fetch-stage truncation re-truncated to `OCR_CHARACTER_LIMIT = 6000`
characters by `truncateForAI`'s default prompt limit. -/
theorem textAttachment_section_eq (file : FileMeta) (cfg : Option AIConfig)
    (env : AttachmentEnv) (b : VisionBudget) (text : Str)
    (hthrown : env.thrown = false) (hfetch : env.textFetch = some text)
    (hext : getFileExtension file.filename ∈ TEXT_FILE_EXTENSIONS)
    (hlen : 10000 < text.length) :
    extractAttachmentContentForAI file cfg env b =
      (Except.ok (some (str "Text Content:\n" ++
        (text.take 6000 ++ str "\n... (content truncated)"))), b) := by
  have hfc : fetchFileContent file.filename (some text) =
      some (text.take 10000 ++ str "\n\n... (content truncated)") := by
    simp only [fetchFileContent]
    rw [if_pos hext, if_pos hlen]
  have hm : (str "\n\n... (content truncated)").length = 25 := by decide
  have hlentc : (text.take 10000 ++
      str "\n\n... (content truncated)").length = 10025 := by
    rw [List.length_append, List.length_take, hm]
    have h1 : Min.min 10000 text.length = 10000 := Nat.min_eq_left (by omega)
    omega
  have htr : truncateForAI
      (text.take 10000 ++ str "\n\n... (content truncated)")
      OCR_CHARACTER_LIMIT =
      text.take 6000 ++ str "\n... (content truncated)" := by
    simp only [truncateForAI, OCR_CHARACTER_LIMIT]
    rw [if_neg (by rw [hlentc]; decide)]
    congr 1
    rw [List.take_append_eq_append_take, List.length_take]
    have h1 : Min.min 10000 text.length = 10000 := Nat.min_eq_left (by omega)
    rw [List.take_take, h1]
    have h2 : (6000 : Nat) ⊓ 10000 = 6000 := by decide
    have h3 : 6000 - 10000 = 0 := by decide
    rw [h2, h3, List.take_zero, List.append_nil]
  have hne : ¬(text.take 10000 ++ str "\n\n... (content truncated)" = []) := by
    intro hcontra
    rcases List.append_eq_nil.mp hcontra with ⟨-, h2⟩
    exact absurd h2 (by decide)
  simp only [extractAttachmentContentForAI, hthrown, Bool.false_eq_true,
    if_false]
  rw [if_pos hext, hfetch, hfc]
  simp only []
  rw [if_neg hne, htr]

/-- Environments used only as concrete inputs. -/
def emptyDocxEnv : DocxEnv := ⟨false, false, false, [], []⟩

def emptyPdfEnv : PdfEnv := ⟨false, false, false, 0, []⟩

def emptyImageAttachmentEnv : ImageAttachmentEnv := ⟨false, emptyImageEnv⟩

/-- A text attachment whose fetch yields 10,001 copies of `'a'`. -/
def longTextEnv : AttachmentEnv :=
  { thrown := false
    textFetch := some (List.replicate 10001 'a')
    docx := emptyDocxEnv
    pdf := emptyPdfEnv
    imageAtt := emptyImageAttachmentEnv }

def longTextFile : FileMeta := ⟨str "a.txt", str "text/plain", 10001⟩

/-- C6 (amended): for every text-type attachment whose fetched content is
longer than 10,000 characters, the embedded text section is exactly the first
6,000 characters of the fetched content followed by the truncation marker —
the fetch-stage 10,000-character cut is re-truncated by the 6,000-character
prompt limit. -/
theorem text_section_is_first_6000_chars (file : FileMeta)
    (cfg : Option AIConfig) (env : AttachmentEnv) (b : VisionBudget)
    (text : Str)
    (hthrown : env.thrown = false) (hfetch : env.textFetch = some text)
    (hext : getFileExtension file.filename ∈ TEXT_FILE_EXTENSIONS)
    (hlen : 10000 < text.length) :
    extractAttachmentContentForAI file cfg env b =
      (Except.ok (some (str "Text Content:\n" ++
        (text.take 6000 ++ str "\n... (content truncated)"))), b) :=
  textAttachment_section_eq file cfg env b text hthrown hfetch hext hlen

/-- C6 witness: the amended theorem applied to the 10,001-character input. -/
theorem text_section_is_first_6000_chars_witness :
    extractAttachmentContentForAI longTextFile none longTextEnv
        (createVisionBudget none) =
      (Except.ok (some (str "Text Content:\n" ++
        ((List.replicate 10001 'a').take 6000 ++
          str "\n... (content truncated)"))),
       createVisionBudget none) :=
  text_section_is_first_6000_chars longTextFile none longTextEnv
    (createVisionBudget none) (List.replicate 10001 'a') rfl rfl (by decide)
    (by rw [List.length_replicate]; omega)

/-- C6 counterexample: for the concrete 10,001-character fetched text, the
embedded section equals the 6,000-character truncation and differs from "the
first 10,000 characters followed by the truncation marker" under either
marker variant. -/
theorem text_truncation_claim_false_at_10001 :
    (extractAttachmentContentForAI longTextFile none longTextEnv
        (createVisionBudget none)).1 =
      Except.ok (some (str "Text Content:\n" ++
        ((List.replicate 10001 'a').take 6000 ++
          str "\n... (content truncated)"))) ∧
    str "Text Content:\n" ++
        ((List.replicate 10001 'a').take 6000 ++
          str "\n... (content truncated)") ≠
      str "Text Content:\n" ++
        ((List.replicate 10001 'a').take 10000 ++
          str "\n\n... (content truncated)") ∧
    str "Text Content:\n" ++
        ((List.replicate 10001 'a').take 6000 ++
          str "\n... (content truncated)") ≠
      str "Text Content:\n" ++
        ((List.replicate 10001 'a').take 10000 ++
          str "\n... (content truncated)") := by
  have hlen14 : (str "Text Content:\n").length = 14 := by decide
  have hlen24 : (str "\n... (content truncated)").length = 24 := by decide
  have hlen25 : (str "\n\n... (content truncated)").length = 25 := by decide
  refine ⟨?_, ?_, ?_⟩
  · rw [textAttachment_section_eq longTextFile none longTextEnv
      (createVisionBudget none) (List.replicate 10001 'a') rfl rfl (by decide)
      (by rw [List.length_replicate]; omega)]
  · intro h
    have hL := congrArg List.length h
    simp only [List.length_append, List.length_take, List.length_replicate,
      hlen14, hlen24, hlen25] at hL
    omega
  · intro h
    have hL := congrArg List.length h
    simp only [List.length_append, List.length_take, List.length_replicate,
      hlen14, hlen24, hlen25] at hL
    omega

/-! ## OCR worker memoization -/

/-- A recognition call that finds the memo unset attempts initialization
whenever the OCR library is available. -/
theorem recognize_unset_memo_attempts (dataUrl : Str) (env : OcrEnv)
    (hd : dataUrl ≠ []) (ht : env.tesseractAvailable = true) :
    (recognizeImageTextFromData dataUrl env none).initAttempted = true := by
  rcases env with ⟨ta, ini, rr⟩
  simp only at ht
  subst ht
  cases ini <;> rcases rr with e | pr <;>
    simp [recognizeImageTextFromData, ensureOCRWorker, hd]

/-- C9 (amended): when the one-time worker initialization fails, the failing
recognition call returns the empty-text result and clears the memoized
promise (`ocrWorkerPromise = null`), so the next recognition call re-attempts
worker initialization instead of short-circuiting. -/
theorem ocr_init_failure_clears_memo_and_retries (dataUrl dataUrl2 : Str)
    (env env2 : OcrEnv)
    (hd : dataUrl ≠ []) (ht : env.tesseractAvailable = true)
    (hf : env.initSucceeds = false)
    (hd2 : dataUrl2 ≠ []) (ht2 : env2.tesseractAvailable = true) :
    recognizeImageTextFromData dataUrl env none = ⟨[], none, none, true⟩ ∧
    (recognizeImageTextFromData dataUrl2 env2
      (recognizeImageTextFromData dataUrl env none).memo).initAttempted =
      true := by
  have h1 : recognizeImageTextFromData dataUrl env none =
      ⟨[], none, none, true⟩ := by
    rcases env with ⟨ta, ini, rr⟩
    simp only at ht hf
    subst ht
    subst hf
    simp [recognizeImageTextFromData, ensureOCRWorker, hd]
  refine ⟨h1, ?_⟩
  rw [h1]
  exact recognize_unset_memo_attempts dataUrl2 env2 hd2 ht2

/-- C9 witness: the amended theorem at a concrete failing-then-available
pair of calls. -/
theorem ocr_init_failure_clears_memo_and_retries_witness :
    recognizeImageTextFromData (str "d") ⟨true, false, Except.error ()⟩ none =
      ⟨[], none, none, true⟩ ∧
    (recognizeImageTextFromData (str "d") ⟨true, true, Except.ok (str "t", none)⟩
      (recognizeImageTextFromData (str "d") ⟨true, false, Except.error ()⟩
        none).memo).initAttempted = true :=
  ocr_init_failure_clears_memo_and_retries (str "d") (str "d")
    ⟨true, false, Except.error ()⟩ ⟨true, true, Except.ok (str "t", none)⟩
    (by decide) rfl rfl (by decide) rfl

/-- C9 counterexample: in a concrete two-call run whose first initialization
fails, the first call attempts initialization and yields no text, the memo is
left unset, and the second call re-attempts initialization and recognizes
text — refuting "subsequent calls short-circuit without re-attempting worker
initialization". -/
theorem ocr_failure_not_cached_counterexample :
    ((runOcrCalls [(str "d", ⟨true, false, Except.error ()⟩),
        (str "d", ⟨true, true, Except.ok (str "t", some 90)⟩)] none).1.getD 0
        ⟨[], none, none, false⟩).initAttempted = true ∧
    ((runOcrCalls [(str "d", ⟨true, false, Except.error ()⟩),
        (str "d", ⟨true, true, Except.ok (str "t", some 90)⟩)] none).1.getD 0
        ⟨[], none, none, false⟩).text = [] ∧
    ((runOcrCalls [(str "d", ⟨true, false, Except.error ()⟩),
        (str "d", ⟨true, true, Except.ok (str "t", some 90)⟩)] none).1.getD 0
        ⟨[], none, none, false⟩).memo = none ∧
    ((runOcrCalls [(str "d", ⟨true, false, Except.error ()⟩),
        (str "d", ⟨true, true, Except.ok (str "t", some 90)⟩)] none).1.getD 1
        ⟨[], none, none, false⟩).initAttempted = true ∧
    ((runOcrCalls [(str "d", ⟨true, false, Except.error ()⟩),
        (str "d", ⟨true, true, Except.ok (str "t", some 90)⟩)] none).1.getD 1
        ⟨[], none, none, false⟩).text = str "t" := by
  refine ⟨rfl, rfl, rfl, rfl, rfl⟩

/-! ## Concrete witness inputs -/

def openaiCfg : Option AIConfig := some ⟨str "openai", str "k", str "gpt-4o"⟩

def forcedStep : ImageStep :=
  ⟨⟨str "data:x", str "image/png", [], none, Except.ok (str "desc")⟩,
   str "PDF Page 1", true⟩

def failedStep : ImageStep :=
  ⟨⟨str "data:x", str "image/png", [], none, Except.error ()⟩,
   str "Img", true⟩

def skipEnvW : ImageEnv :=
  ⟨str "data:x", str "image/png", [], none, Except.error ()⟩

def thrownEnv : AttachmentEnv :=
  { thrown := true
    textFetch := none
    docx := emptyDocxEnv
    pdf := emptyPdfEnv
    imageAtt := emptyImageAttachmentEnv }

def fileW : FileMeta := ⟨str "f.txt", str "text/plain", 0⟩

def pdfPageW : PdfPage := ⟨[str "hello"], emptyImageEnv⟩

def pdfEnvW : PdfEnv := ⟨true, true, true, 8, List.replicate 8 pdfPageW⟩

/-- C3 witness: a one-attachment upload whose extraction throws. -/
theorem extraction_failure_isolated_per_attachment_witness :
    (attachmentsLoop none [(fileW, thrownEnv)] (createVisionBudget none)).1.length =
      [(fileW, thrownEnv)].length ∧
    occursInB (str "(Content could not be processed)")
      (extractSubmissionContent
        ⟨str "online_upload", [], [], [(fileW, thrownEnv)]⟩ none) = true := by
  obtain ⟨h1, -, h3⟩ := extraction_failure_isolated_per_attachment none [] []
    [(fileW, thrownEnv)] 0 (by decide) rfl
  exact ⟨h1, h3⟩

/-- C4 witness: an 8-page PDF with a rich text layer on every page. -/
theorem pdf_page_limit_order_forcevision_note_witness :
    (extractPdfContentForAI none pdfEnvW (createVisionBudget none)).pageCalls.length =
      min pdfEnvW.numPages 5 ∧
    (extractPdfContentForAI none pdfEnvW (createVisionBudget none)).pageCalls.getD 0
        (0, false) =
      (0 + 1, decide (pdfPageText (pdfEnvW.pages.getD 0 emptyPdfPage) = [])) ∧
    (extractPdfContentForAI none pdfEnvW (createVisionBudget none)).sections =
      (pdfPagesLoop none
        (pdfEnvW.pages.take (min pdfEnvW.numPages DOCUMENT_OCR_PAGE_LIMIT)) 1
        (createVisionBudget none)).1 ++
        (if 5 < pdfEnvW.numPages then
          [str "Note: OCR limited to first " ++
            natToStr (min pdfEnvW.numPages DOCUMENT_OCR_PAGE_LIMIT) ++
            str " pages out of " ++ natToStr pdfEnvW.numPages ++ str "."]
         else []) :=
  pdf_page_limit_order_forcevision_note none pdfEnvW (createVisionBudget none)
    0 rfl rfl rfl (by decide) (by decide)

/-- C7 witness: a single forced-vision step under an enabled fresh budget. -/
theorem forced_vision_always_attempted_witness :
    ((runImages openaiCfg [forcedStep] (createVisionBudget openaiCfg)).1.getD 0
      ⟨none, createVisionBudget openaiCfg, false, false⟩).visionAttempted =
      true :=
  forced_vision_always_attempted openaiCfg [forcedStep] 0 (by decide) rfl
    (by decide) (by decide) (by decide)

/-- C8 witness: a forced-vision image under a disabled budget embeds the
no-vision-support placeholder and attempts nothing. -/
theorem vision_skip_placeholders_embedded_witness :
    (processImageForAI none skipEnvW (str "Image") true
      ⟨false, 0, 3, []⟩).visionAttempted = false ∧
    occursInB (str "(Skipped – current model does not support vision input)")
      ((processImageForAI none skipEnvW (str "Image") true
        ⟨false, 0, 3, []⟩).analysis.getD []) = true :=
  vision_skip_placeholders_embedded none skipEnvW (str "Image") true
    ⟨false, 0, 3, []⟩ (by decide) (Or.inr rfl) (Or.inl rfl)

/-- C10 witness: one attempted-but-failed vision call consumes budget without
recording a source. -/
theorem vision_used_counts_attempts_sources_only_success_witness :
    (runImages openaiCfg ([failedStep].take 1)
        (createVisionBudget openaiCfg)).2.sources.length ≤
      (runImages openaiCfg ([failedStep].take 1)
        (createVisionBudget openaiCfg)).2.used ∧
    (runImages openaiCfg ([failedStep].take 1)
        (createVisionBudget openaiCfg)).2.used =
      (runImages openaiCfg ([failedStep].take 0)
        (createVisionBudget openaiCfg)).2.used + 1 ∧
    (runImages openaiCfg ([failedStep].take 1)
        (createVisionBudget openaiCfg)).2.sources =
      (runImages openaiCfg ([failedStep].take 0)
        (createVisionBudget openaiCfg)).2.sources := by
  obtain ⟨h1, h2, h3, -⟩ :=
    vision_used_counts_attempts_sources_only_success openaiCfg [failedStep]
      0 1 (by decide)
  exact ⟨h1, h2 (by decide), h3 (by decide) (by decide)⟩
